import Mathlib

/-!
Verification of the solar-tracker lookup-table engine.

This file gives a shallow embedding of the Rust sources
(`src/rust/src/lookup_table.rs`, `src/rust/src/angles.rs`,
`src/rust/src/types.rs`) and proves properties of the embedded code.

Modelling conventions:
* `i32`/`usize` values are modelled as `Int`/`Nat`; Rust integer division
  and remainder truncate toward zero, so they are modelled with `Int.tdiv`
  (Lean's `/` on `Int` is Euclidean division and would be wrong).
  Rust `as usize` / `as u32` casts wrap two's-complement, modelled with `emod`.
* `f64` values that only flow through field-exact arithmetic
  (interpolation, windowing arithmetic) are modelled as `ℚ`;
  `f64` values produced by trigonometry are modelled as `ℝ`.
  An `as i32` cast of a float truncates toward zero, modelled by
  `truncQ` / `truncR` (saturation at the `i32` bounds never occurs for the
  magnitudes involved and is not modelled).
* The solar-geometry formulas (`solar_declination`, `equation_of_time`,
  `single_axis_tilt`, `dual_axis_angles`, `compute_angles_fast`) are the
  trigonometric collaborator of the table generator; spec §1/§6 treats them
  as an external collaborator specified by contract.  The table generator is
  therefore embedded parametrically over a `SolarOracle` that provides, per
  day, the estimated sunrise/sunset, the UTC↔local-solar correction in
  minutes, and the entry angle values.  The Rust code instantiates these
  with the concrete trigonometric functions; every theorem below quantifies
  over all oracles, so it covers that instantiation.
* Rust `Vec` indexing panics when out of bounds; a computation that can
  panic is embedded with the `RustOutcome` type (`panics` vs `returns`).
-/

namespace SolarTracker

/-- Result of running a Rust function that may panic. -/
inductive RustOutcome (α : Type) where
  | panics : RustOutcome α
  | returns (val : α) : RustOutcome α
deriving DecidableEq

/-- Rust `types.rs`: pair of sunrise/sunset minutes-since-midnight. -/
structure SunriseSunset where
  sunrise : Int
  sunset : Int
deriving DecidableEq

/-- Rust `types.rs`: single-axis table entry (minute plus optional rotation angle). -/
structure SingleAxisEntry where
  minutes : Int
  rotation : Option ℚ
deriving DecidableEq

/-- Rust `types.rs`: dual-axis table entry (minute plus optional tilt and azimuth). -/
structure DualAxisEntry where
  minutes : Int
  tilt : Option ℚ
  panel_azimuth : Option ℚ
deriving DecidableEq

/-- Rust `types.rs`: one day row of a lookup table. -/
structure DayData (E : Type) where
  day_of_year : Int
  sunrise_minutes : Int
  sunset_minutes : Int
  entries : List E
deriving DecidableEq

/-- Rust `types.rs`: table metadata.  The Rust code stamps `generated_at` from the
wall clock (`format_utc_now`); the generator below receives the stamp as an
argument since reading the clock is I/O. -/
structure TableMetadata where
  generated_at : String
  total_entries : Nat
  storage_estimate_kb : ℚ

/-- Rust `types.rs`: generation configuration.  `latitude`/`longitude` are consumed
only by the trigonometric collaborator (abstracted into the oracle below), but
are kept for shape fidelity. -/
structure LookupTableConfig where
  interval_minutes : Int
  latitude : ℚ
  longitude : ℚ
  year : Int
  sunrise_buffer_minutes : Int
  sunset_buffer_minutes : Int
deriving DecidableEq

/-- Rust `types.rs`: a generated lookup table. -/
structure LookupTable (E : Type) where
  config : LookupTableConfig
  days : List (DayData E)
  metadata : TableMetadata

/-! ## Calendar utilities (`angles.rs`) -/

/-- Rust `angles.rs` `leap_year`: Gregorian rule.  Rust `%` on `i32` truncates
toward zero; comparison with 0 gives the same answer for every division
convention, so Lean's `%` is used. -/
def leap_year (year : Int) : Bool :=
  year % 400 == 0 || (year % 4 == 0 && year % 100 != 0)

/-- Rust `angles.rs` `days_in_months`. -/
def days_in_months (year : Int) : List Nat :=
  [31, if leap_year year then 29 else 28, 31, 30, 31, 30, 31, 31, 30, 31, 30, 31]

/-- Rust `angles.rs` `day_of_year`: sum of the full months before `month`
(`dim[..month-1]`, modelled with `List.take`, total where Rust would panic
for `month > 13`) plus `day`. -/
def day_of_year (year : Int) (month day : Nat) : Int :=
  (((days_in_months year).take (month - 1)).sum + day : Nat)

/-- Loop body of `lookup_table.rs` `doy_to_month_day`: walk the month lengths,
returning `(month_idx + 1, remaining)` once `remaining` fits, defaulting to
December 31 after the loop. -/
def doyWalkAux : List Nat → Nat → Nat → Nat × Nat
  | [], _, _ => (12, 31)
  | d :: rest, month_idx, remaining =>
    if remaining ≤ d then (month_idx + 1, remaining)
    else doyWalkAux rest (month_idx + 1) (remaining - d)

/-- Rust `lookup_table.rs` `doy_to_month_day`.  `doy as u32` wraps modulo `2^32`. -/
def doy_to_month_day (year doy : Int) : Nat × Nat :=
  doyWalkAux (days_in_months year) 0 ((doy % 4294967296).toNat)

lemma doyWalkAux_correct :
    ∀ (dim : List Nat) (idx m day : Nat), m < dim.length → 1 ≤ day →
      day ≤ dim.getD m 0 →
      doyWalkAux dim idx ((dim.take m).sum + day) = (idx + m + 1, day) := by
  intro dim
  induction dim with
  | nil => intro idx m day hm; exact absurd hm (by simp)
  | cons d rest ih =>
    intro idx m day hm hday1 hday2
    cases m with
    | zero =>
      simp only [List.take_zero, List.sum_nil, Nat.zero_add]
      simp only [List.getD_cons_zero] at hday2
      simp [doyWalkAux, hday2]
    | succ m =>
      simp only [List.take_succ_cons, List.sum_cons]
      simp only [List.getD_cons_succ] at hday2
      have hm' : m < rest.length := by simpa using hm
      have ih' := ih (idx + 1) m day hm' hday1 hday2
      have harg : d + (rest.take m).sum + day = d + ((rest.take m).sum + day) := by omega
      rw [harg]
      simp only [doyWalkAux]
      rw [if_neg (by omega : ¬ (d + ((rest.take m).sum + day) ≤ d))]
      rw [show d + ((rest.take m).sum + day) - d = (rest.take m).sum + day by omega]
      rw [ih']
      exact Prod.ext (by omega) rfl

lemma days_in_months_length (year : Int) : (days_in_months year).length = 12 := by
  simp [days_in_months]

lemma days_in_months_sum_le (year : Int) : (days_in_months year).sum ≤ 366 := by
  cases h : leap_year year <;> simp [days_in_months, h]

lemma days_in_months_getD_le (year : Int) (i : Nat) :
    (days_in_months year).getD i 0 ≤ 31 := by
  cases h : leap_year year <;>
    rcases i with _ | _ | _ | _ | _ | _ | _ | _ | _ | _ | _ | _ | i <;>
    simp [days_in_months, h, List.getD]

/-- Claim C2: for every year, month in 1..12 and day valid for that month,
`doy_to_month_day (year, day_of_year (year, month, day))` equals
`(month, day)`. -/
theorem calendar_roundtrip (year : Int) (month day : Nat)
    (h1 : 1 ≤ month) (h2 : month ≤ 12) (h3 : 1 ≤ day)
    (h4 : day ≤ (days_in_months year).getD (month - 1) 0) :
    doy_to_month_day year (day_of_year year month day) = (month, day) := by
  have hN : (((days_in_months year).take (month - 1)).sum + day) < 4294967296 := by
    have hth : ((days_in_months year).take (month - 1)).sum ≤ (days_in_months year).sum := by
      calc ((days_in_months year).take (month - 1)).sum
          ≤ ((days_in_months year).take (month - 1)).sum
            + ((days_in_months year).drop (month - 1)).sum := Nat.le_add_right _ _
        _ = (days_in_months year).sum := by
            rw [← List.sum_append, List.take_append_drop]
    have hsum := days_in_months_sum_le year
    have hd31 : day ≤ 31 := le_trans h4 (days_in_months_getD_le year (month - 1))
    omega
  have hmod : ((((days_in_months year).take (month - 1)).sum + day : Nat) : Int)
      % 4294967296 = (((days_in_months year).take (month - 1)).sum + day : Nat) :=
    Int.emod_eq_of_lt (by positivity) (by exact_mod_cast hN)
  unfold doy_to_month_day day_of_year
  rw [hmod]
  rw [Int.toNat_natCast]
  have hwalk := doyWalkAux_correct (days_in_months year) 0 (month - 1) day
    (by rw [days_in_months_length]; omega) h3 h4
  rw [hwalk]
  have : 0 + (month - 1) + 1 = month := by omega
  rw [this]

/-- Witness for C2 at the concrete leap-year date 2024-02-29. -/
theorem calendar_roundtrip_witness :
    (1 ≤ 2 ∧ 2 ≤ 12 ∧ 1 ≤ 29 ∧ 29 ≤ (days_in_months 2024).getD 1 0) ∧
      doy_to_month_day 2024 (day_of_year 2024 2 29) = (2, 29) :=
  ⟨by decide, calendar_roundtrip 2024 2 29 (by decide) (by decide) (by decide) (by decide)⟩

/-! ## Interpolation (`lookup_table.rs`) -/

/-- Rust `f64::rem_euclid` for a positive modulus: `x - m * ⌊x / m⌋`. -/
def remEuclid (x m : ℚ) : ℚ := x - m * ⌊x / m⌋

/-- Rust `lookup_table.rs` `interpolate_angle`: shortest-arc correction then
linear interpolation, reduced with `rem_euclid(360)`.  The `?` early returns
on the two operands become the `none` arm. -/
def interpolate_angle (a1 a2 : Option ℚ) (fraction : ℚ) : Option ℚ :=
  match a1, a2 with
  | some v1, some v2 =>
    let diff := v2 - v1
    let adjusted_diff :=
      if 180 < diff then diff - 360
      else if diff < -180 then diff + 360
      else diff
    some (remEuclid (v1 + adjusted_diff * fraction) 360)
  | _, _ => none

/-- Rust `lookup_table.rs` `interpolate_linear`: `a + fraction * (b - a)`, absent
when either endpoint is absent. -/
def interpolate_linear (v1 v2 : Option ℚ) (fraction : ℚ) : Option ℚ :=
  match v1, v2 with
  | some a, some b => some (a + fraction * (b - a))
  | _, _ => none

/-- The `Some(after)` arm of `lookup_dual_axis`: interpolate each field
independently. -/
def interpDualEntry (minutes : Int) (before after : DualAxisEntry)
    (fraction : ℚ) : DualAxisEntry :=
  { minutes := minutes
    tilt := interpolate_linear before.tilt after.tilt fraction
    panel_azimuth := interpolate_angle before.panel_azimuth after.panel_azimuth fraction }

lemma remEuclid_nonneg (x : ℚ) {m : ℚ} (hm : 0 < m) : 0 ≤ remEuclid x m := by
  have h := Int.floor_le (x / m)
  have h' : (⌊x / m⌋ : ℚ) * m ≤ x := (le_div_iff₀ hm).1 h
  unfold remEuclid
  nlinarith

lemma remEuclid_lt (x : ℚ) {m : ℚ} (hm : 0 < m) : remEuclid x m < m := by
  have h := Int.lt_floor_add_one (x / m)
  have h' : x < ((⌊x / m⌋ : ℚ) + 1) * m := (div_lt_iff₀ hm).1 h
  unfold remEuclid
  nlinarith

/-- Claim C4: for present endpoint angles, `interpolate_angle` applies the
shortest-arc correction and returns `(v1 + corrected * fraction)` reduced
mod 360 into `[0, 360)`; at the seam, both `interpolate_angle 350 10 0.5`
and `interpolate_angle 10 350 0.5` give 0. -/
theorem interpolate_angle_spec :
    (∀ v1 v2 fraction : ℚ, ∃ r : ℚ,
      interpolate_angle (some v1) (some v2) fraction = some r ∧
      r = remEuclid (v1 +
          (if 180 < v2 - v1 then v2 - v1 - 360
           else if v2 - v1 < -180 then v2 - v1 + 360
           else v2 - v1) * fraction) 360 ∧
      0 ≤ r ∧ r < 360) ∧
    interpolate_angle (some 350) (some 10) (1 / 2) = some 0 ∧
    interpolate_angle (some 10) (some 350) (1 / 2) = some 0 := by
  refine ⟨fun v1 v2 fraction => ⟨_, rfl, rfl, remEuclid_nonneg _ (by norm_num),
    remEuclid_lt _ (by norm_num)⟩, ?_, ?_⟩
  · show some (remEuclid _ 360) = some 0
    norm_num [remEuclid]
  · show some (remEuclid _ 360) = some 0
    norm_num [remEuclid]

/-- Claim C9: linear and angular interpolation return an absent result exactly
when an endpoint is absent, and in the interpolated dual-axis combination this
applies per field. -/
theorem interpolation_absence_spec :
    (∀ (v1 v2 : Option ℚ) (fraction : ℚ),
        (interpolate_linear v1 v2 fraction).isSome = (v1.isSome && v2.isSome)) ∧
    (∀ (a1 a2 : Option ℚ) (fraction : ℚ),
        (interpolate_angle a1 a2 fraction).isSome = (a1.isSome && a2.isSome)) ∧
    (∀ (minutes : Int) (eb ea : DualAxisEntry) (fraction : ℚ),
        (interpDualEntry minutes eb ea fraction).tilt.isSome
            = (eb.tilt.isSome && ea.tilt.isSome) ∧
        (interpDualEntry minutes eb ea fraction).panel_azimuth.isSome
            = (eb.panel_azimuth.isSome && ea.panel_azimuth.isSome)) := by
  refine ⟨fun v1 v2 fraction => ?_, fun a1 a2 fraction => ?_, fun m eb ea fraction => ⟨?_, ?_⟩⟩
  · cases v1 <;> cases v2 <;> rfl
  · cases a1 <;> cases a2 <;> rfl
  · show (interpolate_linear eb.tilt ea.tilt fraction).isSome = _
    cases eb.tilt <;> cases ea.tilt <;> rfl
  · show (interpolate_angle eb.panel_azimuth ea.panel_azimuth fraction).isSome = _
    cases eb.panel_azimuth <;> cases ea.panel_azimuth <;> rfl

/-! ## Daylight window estimator (`angles.rs` trigonometry + `lookup_table.rs`
`estimate_sunrise_sunset`), with `f64` modelled as `ℝ` -/

/-- Rust `angles.rs` constant `EARTH_AXIAL_TILT`. -/
def EARTH_AXIAL_TILT : ℝ := 23.45

/-- Rust `angles.rs` `deg_to_rad`. -/
noncomputable def deg_to_rad (deg : ℝ) : ℝ := deg * (Real.pi / 180)

/-- Rust `angles.rs` `rad_to_deg`. -/
noncomputable def rad_to_deg (rad : ℝ) : ℝ := rad * (180 / Real.pi)

/-- Rust `angles.rs` `solar_declination`. -/
noncomputable def solar_declination (n : Int) : ℝ :=
  EARTH_AXIAL_TILT * Real.sin (deg_to_rad (360 * (((284 + n : Int) : ℝ) / 365)))

/-- Rust `as i32` on an `f64`: truncation toward zero. -/
noncomputable def truncR (x : ℝ) : Int := if 0 ≤ x then ⌊x⌋ else ⌈x⌉

/-- Rust `lookup_table.rs` `estimate_sunrise_sunset`. -/
noncomputable def estimate_sunrise_sunset (latitude : ℝ) (day_of_year : Int) :
    SunriseSunset :=
  let lat_rad := deg_to_rad latitude
  let decl := solar_declination day_of_year
  let decl_rad := deg_to_rad decl
  let cos_h := -Real.tan lat_rad * Real.tan decl_rad
  if 1 ≤ cos_h then
    { sunrise := 720, sunset := 720 }
  else if cos_h ≤ -1 then
    { sunrise := 0, sunset := 1440 }
  else
    let h_deg := rad_to_deg (Real.arccos cos_h)
    let half_day_minutes := h_deg / 15 * 60
    { sunrise := truncR (720 - half_day_minutes),
      sunset := truncR (720 + half_day_minutes) }

/-- Claim C3: `estimate_sunrise_sunset` handles the polar degeneracies by
sentinel: with `cosH = -tan(latitude) * tan(declination)`, `cosH ≥ 1` gives
sunrise = sunset = 720, `cosH ≤ -1` gives sunrise = 0, sunset = 1440, and
otherwise sunrise/sunset are `720 ∓ halfDay` with
`halfDay = (acos cosH in degrees / 15) * 60`. -/
theorem estimate_sunrise_sunset_spec (lat : ℝ) (doy : Int) :
    estimate_sunrise_sunset lat doy =
      (let cosH := -(Real.tan (deg_to_rad lat) *
          Real.tan (deg_to_rad (solar_declination doy)))
       if 1 ≤ cosH then { sunrise := 720, sunset := 720 }
       else if cosH ≤ -1 then { sunrise := 0, sunset := 1440 }
       else
         let halfDay := rad_to_deg (Real.arccos cosH) / 15 * 60
         { sunrise := truncR (720 - halfDay),
           sunset := truncR (720 + halfDay) }) := by
  unfold estimate_sunrise_sunset
  simp only [neg_mul]

/-! ## Table generator (`lookup_table.rs` `generate_table` and the two entry
strategies).

Per day, the Rust generator derives from the configuration, via the
trigonometric collaborator: the local-solar sunrise/sunset estimate
(`estimate_sunrise_sunset(config.latitude, doy)`) and the UTC↔local-solar
correction in minutes (`utc_lst_correction(config.longitude,
equation_of_time(doy)) * 60.0`), plus the per-minute angle values
(`single_axis_tilt` / `dual_axis_angles` applied to `compute_angles_fast`).
These trigonometric quantities are abstracted into a `SolarOracle`; all
integer windowing, sampling and bookkeeping is embedded exactly. -/

/-- Rust `as i32` on an `f64` modelled as `ℚ`: truncation toward zero. -/
def truncQ (q : ℚ) : Int := if 0 ≤ q then ⌊q⌋ else ⌈q⌉

/-- Rust `lookup_table.rs` `intervals_per_day`: `1440 / interval_minutes` with
Rust truncating division.  Rust integer division panics when
`interval_minutes = 0`; that failure is modelled at the generation entry
point by `generate_table_run` below, and this total function (Lean's
`Int.tdiv x 0 = 0`) is meaningful only on the non-panicking path, where the
divisor is nonzero. -/
def intervals_per_day (interval_minutes : Int) : Int :=
  Int.tdiv 1440 interval_minutes

/-- Per-day outputs of the trigonometric collaborator consumed by the
generator: the sunrise/sunset estimate (local solar frame) and
`correction * 60.0` in minutes. -/
structure DayGeo where
  ss : SunriseSunset
  correctionMinutes : ℚ

/-- The trigonometric collaborator of the generator (spec §6): per-day
geometry plus the angle-value functions of day and minute that the two entry
strategies sample. -/
structure SolarOracle where
  dayGeo : Int → DayGeo
  saRotation : Int → Int → ℚ
  daTilt : Int → Int → ℚ
  daAzimuth : Int → Int → ℚ

/-- Rust `sunrise_utc = (ss.sunrise as f64 - correction_minutes) as i32`. -/
def sunrise_utc (g : DayGeo) : Int :=
  truncQ ((g.ss.sunrise : ℚ) - g.correctionMinutes)

/-- Rust `sunset_utc = (ss.sunset as f64 - correction_minutes) as i32`. -/
def sunset_utc (g : DayGeo) : Int :=
  truncQ ((g.ss.sunset : ℚ) - g.correctionMinutes)

/-- Rust `start_minute = 0.max(sunrise_utc - sunrise_buffer_minutes)`. -/
def window_start (cfg : LookupTableConfig) (g : DayGeo) : Int :=
  max 0 (sunrise_utc g - cfg.sunrise_buffer_minutes)

/-- Rust `end_minute = 1439.min(sunset_utc + sunset_buffer_minutes)`. -/
def window_end (cfg : LookupTableConfig) (g : DayGeo) : Int :=
  min 1439 (sunset_utc g + cfg.sunset_buffer_minutes)

/-- Ceiling division for the first sampled interval index. -/
def first_interval (cfg : LookupTableConfig) (g : DayGeo) : Int :=
  Int.tdiv (window_start cfg g + cfg.interval_minutes - 1) cfg.interval_minutes

/-- Rust `(end_minute / interval_minutes).min(n_intervals - 1)`. -/
def last_interval (cfg : LookupTableConfig) (g : DayGeo) : Int :=
  min (Int.tdiv (window_end cfg g) cfg.interval_minutes)
    (intervals_per_day cfg.interval_minutes - 1)

/-- Rust ascending inclusive range `lo..=hi` as a list, by element count. -/
def intRangeGo : Int → Nat → List Int
  | _, 0 => []
  | lo, n + 1 => lo :: intRangeGo (lo + 1) n

/-- Rust `lo..=hi` (empty when `hi < lo`). -/
def intRangeIncl (lo hi : Int) : List Int :=
  intRangeGo lo (hi + 1 - lo).toNat

/-- Rust `local_minutes = (mins as f64 + correction_minutes) as i32`. -/
def local_minutes (g : DayGeo) (mins : Int) : Int :=
  truncQ ((mins : ℚ) + g.correctionMinutes)

/-- Rust `is_daylight = local_minutes >= ss.sunrise && local_minutes <= ss.sunset`. -/
def is_daylight (g : DayGeo) (mins : Int) : Bool :=
  decide (g.ss.sunrise ≤ local_minutes g mins ∧ local_minutes g mins ≤ g.ss.sunset)

/-- The inner sampling loop of `generate_table` for one day: one entry per
interval index in `first_interval..=last_interval`.  The Rust entry closure
receives `(mins, &pos, is_daylight)`; `pos` is a function of the day and the
minute through the per-day precomputed trigonometry, so the embedded entry
function takes `(doy, mins, is_daylight)`. -/
def day_entries {E : Type} (cfg : LookupTableConfig) (g : DayGeo) (doy : Int)
    (entry_fn : Int → Int → Bool → E) : List E :=
  (intRangeIncl (first_interval cfg g) (last_interval cfg g)).map fun interval =>
    let mins := interval * cfg.interval_minutes
    entry_fn doy mins (is_daylight g mins)

/-- One `DayData` row pushed by `generate_table` for day `doy`. -/
def day_row {E : Type} (cfg : LookupTableConfig) (geo : Int → DayGeo)
    (entry_fn : Int → Int → Bool → E) (doy : Int) : DayData E :=
  { day_of_year := doy
    sunrise_minutes := (geo doy).ss.sunrise
    sunset_minutes := (geo doy).ss.sunset
    entries := day_entries cfg (geo doy) doy entry_fn }

/-- Rust `n_days = if leap_year { 366 } else { 365 }`. -/
def n_days (year : Int) : Int := if leap_year year then 366 else 365

/-- Rust `lookup_table.rs` `generate_table`, generic over the entry strategy:
the non-panicking path, reached exactly when `interval_minutes ≠ 0`
(see `generate_table_run`). -/
def generate_table {E : Type} (cfg : LookupTableConfig) (geo : Int → DayGeo)
    (entry_fn : Int → Int → Bool → E) (bytes_per_entry : Nat)
    (generated_at : String) : LookupTable E :=
  let days := (intRangeIncl 1 (n_days cfg.year)).map (day_row cfg geo entry_fn)
  let total_entries := (days.map (fun d => d.entries.length)).sum
  { config := cfg
    days := days
    metadata :=
      { generated_at := generated_at
        total_entries := total_entries
        storage_estimate_kb := ((total_entries * bytes_per_entry : Nat) : ℚ) / 1024 } }

/-- Running Rust `generate_table`: the first thing it evaluates is
`intervals_per_day(config.interval_minutes)`, whose integer division (like
every later per-day division by the interval) panics when
`interval_minutes = 0`; with a nonzero interval no division panics and the
loop produces the table of `generate_table`. -/
def generate_table_run {E : Type} (cfg : LookupTableConfig) (geo : Int → DayGeo)
    (entry_fn : Int → Int → Bool → E) (bytes_per_entry : Nat)
    (generated_at : String) : RustOutcome (LookupTable E) :=
  if cfg.interval_minutes = 0 then RustOutcome.panics
  else RustOutcome.returns (generate_table cfg geo entry_fn bytes_per_entry generated_at)

/-- The entry closure of `generate_single_axis_table`: daylight minutes get
`Some(single_axis_tilt(pos, latitude))`, buffer minutes get `None`. -/
def saEntryFn (o : SolarOracle) : Int → Int → Bool → SingleAxisEntry :=
  fun doy mins daylight =>
    { minutes := mins
      rotation := if daylight then some (o.saRotation doy mins) else none }

/-- The entry closure of `generate_dual_axis_table`: daylight minutes get
`Some(tilt)` and `Some(panel_azimuth)`, buffer minutes get both `None`. -/
def daEntryFn (o : SolarOracle) : Int → Int → Bool → DualAxisEntry :=
  fun doy mins daylight =>
    if daylight then
      { minutes := mins
        tilt := some (o.daTilt doy mins)
        panel_azimuth := some (o.daAzimuth doy mins) }
    else
      { minutes := mins, tilt := none, panel_azimuth := none }

/-- Rust `lookup_table.rs` `generate_single_axis_table`. -/
def generate_single_axis_table (o : SolarOracle) (cfg : LookupTableConfig)
    (generated_at : String) : LookupTable SingleAxisEntry :=
  generate_table cfg o.dayGeo (saEntryFn o) 4 generated_at

/-- Rust `lookup_table.rs` `generate_dual_axis_table`. -/
def generate_dual_axis_table (o : SolarOracle) (cfg : LookupTableConfig)
    (generated_at : String) : LookupTable DualAxisEntry :=
  generate_table cfg o.dayGeo (daEntryFn o) 8 generated_at

/-! ## Interpolated lookup engine (`lookup_table.rs`) -/

/-- The Rust `HasMinutes` trait. -/
class HasMinutes (E : Type) where
  minutes : E → Int

instance : HasMinutes SingleAxisEntry :=
  ⟨SingleAxisEntry.minutes⟩

instance : HasMinutes DualAxisEntry :=
  ⟨DualAxisEntry.minutes⟩

/-- Rust `lookup_table.rs` `find_bracketing_entries`.
`entries.last().unwrap()` is modelled with `getLast?.getD` (the list is
non-empty at that point, so the default is never used).  The Rust
`as usize` on `idx_before` would panic for a negative quotient (possible
only when `interval_minutes ≤ 0`); the total model takes `toNat`, and every
theorem below that reaches this index uses a positive interval.  The
fraction denominator is an `f64` difference; `t1 = t0` cannot occur on the
uniform grids produced by the generator. -/
def find_bracketing_entries {E : Type} [HasMinutes E]
    (entries : List E) (interval_minutes minutes : Int) :
    Option (E × Option E × ℚ) :=
  match entries with
  | [] => none
  | e0 :: rest =>
    let first_minutes := HasMinutes.minutes e0
    let last_minutes := HasMinutes.minutes (((e0 :: rest).getLast?).getD e0)
    if minutes < first_minutes || last_minutes < minutes then none
    else
      let idx_before := (min (Int.tdiv (minutes - first_minutes) interval_minutes)
        (((e0 :: rest).length : Int) - 1)).toNat
      let entry_before := (e0 :: rest).getD idx_before e0
      let t0 := HasMinutes.minutes entry_before
      match (e0 :: rest).get? (idx_before + 1) with
      | none => some (entry_before, none, 0)
      | some entry_after =>
        if minutes = t0 then some (entry_before, none, 0)
        else some (entry_before, some entry_after,
          ((minutes - t0 : Int) : ℚ) / ((HasMinutes.minutes entry_after - t0 : Int) : ℚ))

/-- Rust `as usize` of a (sign-extended) machine integer: wrap modulo `2^64`. -/
def usizeOfIntCast (i : Int) : Nat := (i % 18446744073709551616).toNat

/-- Rust `lookup_table.rs` `lookup_single_axis`.  The day row is fetched with an
unchecked `Vec` index `table.days[(day_of_year - 1) as usize]`, which panics
when the index is out of bounds. -/
def lookup_single_axis (table : LookupTable SingleAxisEntry)
    (day_of_year minutes : Int) : RustOutcome (Option SingleAxisEntry) :=
  match table.days.get? (usizeOfIntCast (day_of_year - 1)) with
  | none => RustOutcome.panics
  | some day =>
    RustOutcome.returns
      (match find_bracketing_entries day.entries table.config.interval_minutes minutes with
       | none => none
       | some (bef, none, _) => some { minutes := minutes, rotation := bef.rotation }
       | some (bef, some aft, fraction) =>
         some { minutes := minutes
                rotation := interpolate_linear bef.rotation aft.rotation fraction })

/-- Rust `lookup_table.rs` `lookup_dual_axis`, with the same unchecked day index. -/
def lookup_dual_axis (table : LookupTable DualAxisEntry)
    (day_of_year minutes : Int) : RustOutcome (Option DualAxisEntry) :=
  match table.days.get? (usizeOfIntCast (day_of_year - 1)) with
  | none => RustOutcome.panics
  | some day =>
    RustOutcome.returns
      (match find_bracketing_entries day.entries table.config.interval_minutes minutes with
       | none => none
       | some (bef, none, _) =>
         some { minutes := minutes, tilt := bef.tilt, panel_azimuth := bef.panel_azimuth }
       | some (bef, some aft, fraction) => some (interpDualEntry minutes bef aft fraction))

/-! ## Structural lemmas about the generator -/

lemma intRangeGo_length (lo : Int) (n : Nat) : (intRangeGo lo n).length = n := by
  induction n generalizing lo with
  | zero => rfl
  | succ n ih => simp [intRangeGo, ih]

lemma intRangeGo_get? (lo : Int) (n i : Nat) (h : i < n) :
    (intRangeGo lo n).get? i = some (lo + i) := by
  induction n generalizing lo i with
  | zero => omega
  | succ n ih =>
    cases i with
    | zero => simp [intRangeGo]
    | succ i =>
      have := ih (lo + 1) i (by omega)
      simp only [intRangeGo, List.get?_cons_succ, this]
      congr 1
      push_cast
      ring

lemma intRangeGo_getLast? (lo : Int) (n : Nat) (h : 0 < n) :
    (intRangeGo lo n).getLast? = some (lo + n - 1) := by
  induction n generalizing lo with
  | zero => omega
  | succ n ih =>
    cases n with
    | zero => simp [intRangeGo]
    | succ m =>
      rw [show intRangeGo lo (m + 1 + 1)
          = lo :: ((lo + 1) :: intRangeGo (lo + 1 + 1) m) from rfl]
      rw [List.getLast?_cons_cons]
      rw [show ((lo + 1) :: intRangeGo (lo + 1 + 1) m) = intRangeGo (lo + 1) (m + 1) from rfl]
      rw [ih (lo + 1) (by omega)]
      congr 1
      push_cast
      ring

lemma mem_intRangeGo {x lo : Int} {n : Nat} :
    x ∈ intRangeGo lo n ↔ lo ≤ x ∧ x < lo + n := by
  induction n generalizing lo with
  | zero => simp [intRangeGo]
  | succ n ih =>
    simp only [intRangeGo, List.mem_cons, ih]
    constructor
    · rintro (rfl | ⟨h1, h2⟩) <;> constructor <;> omega
    · rintro ⟨h1, h2⟩
      rcases eq_or_lt_of_le h1 with rfl | hlt
      · exact Or.inl rfl
      · exact Or.inr ⟨by omega, by omega⟩

lemma intRangeGo_chain (lo : Int) (n : Nat) :
    List.Chain' (fun a b => b = a + 1) (intRangeGo lo n) := by
  induction n generalizing lo with
  | zero => simp [intRangeGo]
  | succ n ih =>
    cases n with
    | zero => simp [intRangeGo]
    | succ m =>
      rw [show intRangeGo lo (m + 1 + 1) = lo :: intRangeGo (lo + 1) (m + 1) from rfl]
      rw [show intRangeGo (lo + 1) (m + 1) = (lo + 1) :: intRangeGo (lo + 1 + 1) m from rfl]
      exact List.Chain'.cons rfl (ih (lo + 1))

lemma intRangeGo_pairwise (lo : Int) (n : Nat) :
    List.Pairwise (· < ·) (intRangeGo lo n) := by
  induction n generalizing lo with
  | zero => simp [intRangeGo]
  | succ n ih =>
    rw [show intRangeGo lo (n + 1) = lo :: intRangeGo (lo + 1) n from rfl]
    refine List.Pairwise.cons ?_ (ih (lo + 1))
    intro x hx
    have := mem_intRangeGo.1 hx
    omega

lemma intRangeIncl_length (lo hi : Int) :
    (intRangeIncl lo hi).length = (hi + 1 - lo).toNat := intRangeGo_length _ _

lemma intRangeIncl_eq_nil {lo hi : Int} (h : hi < lo) : intRangeIncl lo hi = [] := by
  unfold intRangeIncl
  rw [show (hi + 1 - lo).toNat = 0 by omega]
  rfl

lemma intRangeIncl_get? {lo hi : Int} {i : Nat} (h : (i : Int) ≤ hi - lo) :
    (intRangeIncl lo hi).get? i = some (lo + i) :=
  intRangeGo_get? lo _ i (by omega)

lemma mem_intRangeIncl {x lo hi : Int} :
    x ∈ intRangeIncl lo hi ↔ lo ≤ x ∧ x ≤ hi := by
  unfold intRangeIncl
  rw [mem_intRangeGo]
  omega

lemma intRangeIncl_getLast? {lo hi : Int} (h : lo ≤ hi) :
    (intRangeIncl lo hi).getLast? = some hi := by
  unfold intRangeIncl
  rw [intRangeGo_getLast? lo _ (by omega)]
  congr 1
  omega

lemma generate_table_days {E : Type} (cfg : LookupTableConfig) (geo : Int → DayGeo)
    (entry_fn : Int → Int → Bool → E) (b : Nat) (s : String) :
    (generate_table cfg geo entry_fn b s).days
      = (intRangeIncl 1 (n_days cfg.year)).map (day_row cfg geo entry_fn) := rfl

lemma generate_table_days_length {E : Type} (cfg : LookupTableConfig)
    (geo : Int → DayGeo) (entry_fn : Int → Int → Bool → E) (b : Nat) (s : String) :
    (generate_table cfg geo entry_fn b s).days.length
      = (if leap_year cfg.year then 366 else 365) := by
  rw [generate_table_days, List.length_map, intRangeIncl_length]
  unfold n_days
  split <;> rfl

lemma generate_table_mem_days {E : Type} {cfg : LookupTableConfig} {geo : Int → DayGeo}
    {entry_fn : Int → Int → Bool → E} {b : Nat} {s : String} {d : DayData E} :
    d ∈ (generate_table cfg geo entry_fn b s).days ↔
      ∃ doy : Int, 1 ≤ doy ∧ doy ≤ n_days cfg.year ∧ d = day_row cfg geo entry_fn doy := by
  rw [generate_table_days, List.mem_map]
  constructor
  · rintro ⟨doy, hmem, rfl⟩
    have := mem_intRangeIncl.1 hmem
    exact ⟨doy, this.1, this.2, rfl⟩
  · rintro ⟨doy, h1, h2, rfl⟩
    exact ⟨doy, mem_intRangeIncl.2 ⟨h1, h2⟩, rfl⟩

lemma day_row_day_of_year {E : Type} (cfg : LookupTableConfig) (geo : Int → DayGeo)
    (entry_fn : Int → Int → Bool → E) (doy : Int) :
    (day_row cfg geo entry_fn doy).day_of_year = doy := rfl

lemma mem_day_entries {E : Type} {cfg : LookupTableConfig} {g : DayGeo} {doy : Int}
    {entry_fn : Int → Int → Bool → E} {e : E} :
    e ∈ day_entries cfg g doy entry_fn ↔
      ∃ i : Int, first_interval cfg g ≤ i ∧ i ≤ last_interval cfg g ∧
        e = entry_fn doy (i * cfg.interval_minutes)
              (is_daylight g (i * cfg.interval_minutes)) := by
  unfold day_entries
  rw [List.mem_map]
  constructor
  · rintro ⟨i, hmem, rfl⟩
    have := mem_intRangeIncl.1 hmem
    exact ⟨i, this.1, this.2, rfl⟩
  · rintro ⟨i, h1, h2, rfl⟩
    exact ⟨i, mem_intRangeIncl.2 ⟨h1, h2⟩, rfl⟩

lemma saEntryFn_minutes (o : SolarOracle) (doy mins : Int) (b : Bool) :
    (saEntryFn o doy mins b).minutes = mins := rfl

lemma daEntryFn_minutes (o : SolarOracle) (doy mins : Int) (b : Bool) :
    (daEntryFn o doy mins b).minutes = mins := by
  cases b <;> rfl

/-- Claim C5: in every generated table (either axis kind), an entry's angle
field(s) are present exactly when the entry's minute, converted to the local
solar frame the windowing uses (`local_minutes`), lies within the day row's
stored `[sunrise, sunset]`. -/
theorem entry_presence_iff_daylight (o : SolarOracle) (cfg : LookupTableConfig)
    (s : String) :
    (∀ d ∈ (generate_single_axis_table o cfg s).days, ∀ e ∈ d.entries,
      (e.rotation.isSome = true ↔
        d.sunrise_minutes ≤ local_minutes (o.dayGeo d.day_of_year) e.minutes ∧
          local_minutes (o.dayGeo d.day_of_year) e.minutes ≤ d.sunset_minutes)) ∧
    (∀ d ∈ (generate_dual_axis_table o cfg s).days, ∀ e ∈ d.entries,
      (e.tilt.isSome = true ↔
        d.sunrise_minutes ≤ local_minutes (o.dayGeo d.day_of_year) e.minutes ∧
          local_minutes (o.dayGeo d.day_of_year) e.minutes ≤ d.sunset_minutes) ∧
      (e.panel_azimuth.isSome = true ↔
        d.sunrise_minutes ≤ local_minutes (o.dayGeo d.day_of_year) e.minutes ∧
          local_minutes (o.dayGeo d.day_of_year) e.minutes ≤ d.sunset_minutes)) := by
  constructor
  · intro d hd e he
    obtain ⟨doy, h1, h2, rfl⟩ := generate_table_mem_days.1 hd
    obtain ⟨i, hi1, hi2, rfl⟩ := mem_day_entries.1 he
    simp only [day_row, saEntryFn, is_daylight]
    by_cases hdl : (o.dayGeo doy).ss.sunrise ≤
          local_minutes (o.dayGeo doy) (i * cfg.interval_minutes) ∧
        local_minutes (o.dayGeo doy) (i * cfg.interval_minutes) ≤ (o.dayGeo doy).ss.sunset
    · simp [hdl]
    · simp [hdl]
  · intro d hd e he
    obtain ⟨doy, h1, h2, rfl⟩ := generate_table_mem_days.1 hd
    obtain ⟨i, hi1, hi2, rfl⟩ := mem_day_entries.1 he
    simp only [day_row, daEntryFn, is_daylight]
    by_cases hdl : (o.dayGeo doy).ss.sunrise ≤
          local_minutes (o.dayGeo doy) (i * cfg.interval_minutes) ∧
        local_minutes (o.dayGeo doy) (i * cfg.interval_minutes) ≤ (o.dayGeo doy).ss.sunset
    · simp [hdl]
    · simp [hdl]

/-! ## Concrete witness instances -/

/-- Empty generation stamp used by the concrete instances. -/
def stampW : String := ""

/-- Concrete collaborator instance: sunrise 360, sunset 1080, zero
correction, zero angles. -/
def oracleW : SolarOracle :=
  { dayGeo := fun _ => { ss := { sunrise := 360, sunset := 1080 }, correctionMinutes := 0 }
    saRotation := fun _ _ => 0
    daTilt := fun _ _ => 0
    daAzimuth := fun _ _ => 0 }

/-- Concrete configuration: 720-minute sampling, year 2026, 30-minute buffers. -/
def cfgW : LookupTableConfig :=
  { interval_minutes := 720, latitude := 0, longitude := 0, year := 2026
    sunrise_buffer_minutes := 30, sunset_buffer_minutes := 30 }

lemma truncQ_intCast (n : Int) : truncQ ((n : ℚ)) = n := by
  unfold truncQ
  split <;> simp

lemma oracleW_window (doy : Int) :
    first_interval cfgW (oracleW.dayGeo doy) = 1 ∧
      last_interval cfgW (oracleW.dayGeo doy) = 1 := by
  have h1 : sunrise_utc (oracleW.dayGeo doy) = 360 := by
    show truncQ (((360 : Int) : ℚ) - 0) = 360
    rw [sub_zero, truncQ_intCast]
  have h2 : sunset_utc (oracleW.dayGeo doy) = 1080 := by
    show truncQ (((1080 : Int) : ℚ) - 0) = 1080
    rw [sub_zero, truncQ_intCast]
  constructor
  · show Int.tdiv (window_start cfgW (oracleW.dayGeo doy) + 720 - 1) 720 = 1
    rw [show window_start cfgW (oracleW.dayGeo doy) = 330 by
      unfold window_start; rw [h1]; decide]
    decide
  · show min (Int.tdiv (window_end cfgW (oracleW.dayGeo doy)) 720)
        (intervals_per_day 720 - 1) = 1
    rw [show window_end cfgW (oracleW.dayGeo doy) = 1110 by
      unfold window_end; rw [h2]; decide]
    decide

lemma oracleW_daylight (doy : Int) : is_daylight (oracleW.dayGeo doy) 720 = true := by
  unfold is_daylight
  rw [show local_minutes (oracleW.dayGeo doy) 720 = 720 by
    show truncQ (((720 : Int) : ℚ) + 0) = 720
    rw [add_zero, truncQ_intCast]]
  show decide ((360 : Int) ≤ 720 ∧ (720 : Int) ≤ 1080) = true
  decide

lemma day_row_W_sa (doy : Int) :
    day_row cfgW oracleW.dayGeo (saEntryFn oracleW) doy =
      { day_of_year := doy, sunrise_minutes := 360, sunset_minutes := 1080
        entries := [{ minutes := 720, rotation := some 0 }] } := by
  obtain ⟨hf, hl⟩ := oracleW_window doy
  unfold day_row day_entries
  rw [hf, hl]
  rw [show intRangeIncl 1 1 = [1] from rfl]
  simp only [List.map_cons, List.map_nil]
  rw [show (1 : Int) * cfgW.interval_minutes = 720 from rfl]
  rw [oracleW_daylight doy]
  rfl

lemma day_row_W_da (doy : Int) :
    day_row cfgW oracleW.dayGeo (daEntryFn oracleW) doy =
      { day_of_year := doy, sunrise_minutes := 360, sunset_minutes := 1080
        entries := [{ minutes := 720, tilt := some 0, panel_azimuth := some 0 }] } := by
  obtain ⟨hf, hl⟩ := oracleW_window doy
  unfold day_row day_entries
  rw [hf, hl]
  rw [show intRangeIncl 1 1 = [1] from rfl]
  simp only [List.map_cons, List.map_nil]
  rw [show (1 : Int) * cfgW.interval_minutes = 720 from rfl]
  rw [oracleW_daylight doy]
  rfl

/-- Witness for C5: in the concrete generated table, the day-80 entry at
minute 720 has a present rotation, and its local minute 720 indeed lies in
the day's daylight window [360, 1080]. -/
theorem entry_presence_iff_daylight_witness :
    (SingleAxisEntry.mk 720 (some 0)).rotation.isSome = true ∧
      (360 : Int) ≤ local_minutes (oracleW.dayGeo 80) 720 ∧
        local_minutes (oracleW.dayGeo 80) 720 ≤ 1080 := by
  have hd : day_row cfgW oracleW.dayGeo (saEntryFn oracleW) 80 ∈
      (generate_single_axis_table oracleW cfgW stampW).days := by
    apply generate_table_mem_days.2
    refine ⟨80, by decide, ?_, rfl⟩
    show (80 : Int) ≤ n_days 2026
    decide
  have he : SingleAxisEntry.mk 720 (some 0) ∈
      (day_row cfgW oracleW.dayGeo (saEntryFn oracleW) 80).entries := by
    rw [day_row_W_sa]
    exact List.mem_singleton.2 rfl
  have h := (entry_presence_iff_daylight oracleW cfgW stampW).1
    (day_row cfgW oracleW.dayGeo (saEntryFn oracleW) 80) hd
    (SingleAxisEntry.mk 720 (some 0)) he
  rw [day_row_W_sa] at h
  simp only at h
  exact ⟨rfl, h.1 rfl⟩

/-! ## Day-row grid structure -/

lemma window_start_nonneg (cfg : LookupTableConfig) (g : DayGeo) :
    0 ≤ window_start cfg g := le_max_left _ _

lemma window_end_le (cfg : LookupTableConfig) (g : DayGeo) :
    window_end cfg g ≤ 1439 := min_le_left _ _

lemma first_interval_nonneg (cfg : LookupTableConfig) (g : DayGeo)
    (hk : 0 < cfg.interval_minutes) : 0 ≤ first_interval cfg g := by
  unfold first_interval
  have := window_start_nonneg cfg g
  exact Int.tdiv_nonneg (by omega) (by omega)

lemma day_entries_pairwise_minutes {E : Type} (cfg : LookupTableConfig) (g : DayGeo)
    (doy : Int) (ef : Int → Int → Bool → E) (mfn : E → Int)
    (hef : ∀ mins b, mfn (ef doy mins b) = mins)
    (hk : 0 < cfg.interval_minutes) :
    List.Pairwise (fun a b => mfn a < mfn b) (day_entries cfg g doy ef) := by
  unfold day_entries
  rw [List.pairwise_map]
  refine List.Pairwise.imp ?_ (intRangeGo_pairwise _ _)
  intro a b hab
  simp only [hef]
  exact mul_lt_mul_of_pos_right hab hk

lemma day_entries_chain_minutes {E : Type} (cfg : LookupTableConfig) (g : DayGeo)
    (doy : Int) (ef : Int → Int → Bool → E) (mfn : E → Int)
    (hef : ∀ mins b, mfn (ef doy mins b) = mins) :
    List.Chain' (fun a b => mfn b = mfn a + cfg.interval_minutes)
      (day_entries cfg g doy ef) := by
  unfold day_entries
  rw [List.chain'_map]
  refine List.Chain'.imp ?_ (intRangeGo_chain _ _)
  intro a b hab
  simp only [hef]
  rw [hab]
  ring

lemma day_entries_minutes_bounds {E : Type} (cfg : LookupTableConfig) (g : DayGeo)
    (doy : Int) (ef : Int → Int → Bool → E) (mfn : E → Int)
    (hef : ∀ mins b, mfn (ef doy mins b) = mins)
    (hk : 0 < cfg.interval_minutes) :
    ∀ e ∈ day_entries cfg g doy ef,
      (∃ j : Int, 0 ≤ j ∧ mfn e = j * cfg.interval_minutes) ∧
        0 ≤ mfn e ∧ mfn e ≤ 1439 := by
  intro e he
  obtain ⟨i, hi1, hi2, rfl⟩ := mem_day_entries.1 he
  have hi0 : 0 ≤ i := le_trans (first_interval_nonneg cfg g hk) hi1
  rw [hef]
  refine ⟨⟨i, hi0, rfl⟩, mul_nonneg hi0 (le_of_lt hk), ?_⟩
  have hle : i ≤ Int.tdiv (window_end cfg g) cfg.interval_minutes :=
    le_trans hi2 (min_le_left _ _)
  have hend1439 := window_end_le cfg g
  by_cases hend : 0 ≤ window_end cfg g
  · have h1 : i * cfg.interval_minutes
        ≤ Int.tdiv (window_end cfg g) cfg.interval_minutes * cfg.interval_minutes :=
      mul_le_mul_of_nonneg_right hle (le_of_lt hk)
    rw [Int.tdiv_eq_ediv hend (le_of_lt hk)] at h1
    have h2 : window_end cfg g / cfg.interval_minutes * cfg.interval_minutes
        ≤ window_end cfg g := Int.ediv_mul_le _ (ne_of_gt hk)
    omega
  · push_neg at hend
    have h1 : 0 ≤ Int.tdiv (-(window_end cfg g)) cfg.interval_minutes :=
      Int.tdiv_nonneg (by omega) (le_of_lt hk)
    have h2 : Int.tdiv (-(-(window_end cfg g))) cfg.interval_minutes
        = -(Int.tdiv (-(window_end cfg g)) cfg.interval_minutes) := Int.neg_tdiv _ _
    rw [neg_neg] at h2
    have hi_np : i ≤ 0 := by omega
    have h3 : i * cfg.interval_minutes ≤ 0 * cfg.interval_minutes :=
      mul_le_mul_of_nonneg_right hi_np (le_of_lt hk)
    simp at h3
    omega

/-- Claim C8 (amended): within any day row of a table generated with a
positive sampling interval, entry minutes are strictly increasing. -/
theorem day_row_minutes_strictly_increasing (o : SolarOracle)
    (cfg : LookupTableConfig) (s : String) (hk : 0 < cfg.interval_minutes) :
    (∀ d ∈ (generate_single_axis_table o cfg s).days,
      List.Pairwise (fun a b : SingleAxisEntry => a.minutes < b.minutes) d.entries) ∧
    (∀ d ∈ (generate_dual_axis_table o cfg s).days,
      List.Pairwise (fun a b : DualAxisEntry => a.minutes < b.minutes) d.entries) := by
  constructor
  · intro d hd
    obtain ⟨doy, h1, h2, rfl⟩ := generate_table_mem_days.1 hd
    exact day_entries_pairwise_minutes cfg _ doy (saEntryFn o)
      SingleAxisEntry.minutes (fun mins b => rfl) hk
  · intro d hd
    obtain ⟨doy, h1, h2, rfl⟩ := generate_table_mem_days.1 hd
    exact day_entries_pairwise_minutes cfg _ doy (daEntryFn o)
      DualAxisEntry.minutes (fun mins b => daEntryFn_minutes o doy mins b) hk

/-- Claim C10: with a positive sampling interval, every generated entry minute
is a nonnegative multiple of `interval_minutes` lying in `[0, 1439]`, and
consecutive entries within a row differ by exactly `interval_minutes`. -/
theorem entry_grid_uniform (o : SolarOracle) (cfg : LookupTableConfig)
    (s : String) (hk : 0 < cfg.interval_minutes) :
    (∀ d ∈ (generate_single_axis_table o cfg s).days,
      (∀ e ∈ d.entries,
        (∃ j : Int, 0 ≤ j ∧ e.minutes = j * cfg.interval_minutes) ∧
          0 ≤ e.minutes ∧ e.minutes ≤ 1439) ∧
      List.Chain' (fun a b : SingleAxisEntry =>
        b.minutes = a.minutes + cfg.interval_minutes) d.entries) ∧
    (∀ d ∈ (generate_dual_axis_table o cfg s).days,
      (∀ e ∈ d.entries,
        (∃ j : Int, 0 ≤ j ∧ e.minutes = j * cfg.interval_minutes) ∧
          0 ≤ e.minutes ∧ e.minutes ≤ 1439) ∧
      List.Chain' (fun a b : DualAxisEntry =>
        b.minutes = a.minutes + cfg.interval_minutes) d.entries) := by
  constructor
  · intro d hd
    obtain ⟨doy, h1, h2, rfl⟩ := generate_table_mem_days.1 hd
    exact ⟨day_entries_minutes_bounds cfg _ doy (saEntryFn o)
        SingleAxisEntry.minutes (fun mins b => rfl) hk,
      day_entries_chain_minutes cfg _ doy (saEntryFn o)
        SingleAxisEntry.minutes (fun mins b => rfl)⟩
  · intro d hd
    obtain ⟨doy, h1, h2, rfl⟩ := generate_table_mem_days.1 hd
    exact ⟨day_entries_minutes_bounds cfg _ doy (daEntryFn o)
        DualAxisEntry.minutes (fun mins b => daEntryFn_minutes o doy mins b) hk,
      day_entries_chain_minutes cfg _ doy (daEntryFn o)
        DualAxisEntry.minutes (fun mins b => daEntryFn_minutes o doy mins b)⟩

/-- Witness for C10 at the concrete generated table: the day-80 entry at
minute 720 is the nonnegative multiple `1 * 720` within `[0, 1439]`. -/
theorem entry_grid_uniform_witness :
    (0 : Int) < cfgW.interval_minutes ∧
      ((∃ j : Int, 0 ≤ j ∧ (720 : Int) = j * cfgW.interval_minutes) ∧
        (0 : Int) ≤ 720 ∧ (720 : Int) ≤ 1439) := by
  have hd : day_row cfgW oracleW.dayGeo (saEntryFn oracleW) 80 ∈
      (generate_single_axis_table oracleW cfgW stampW).days := by
    apply generate_table_mem_days.2
    exact ⟨80, by decide, by show (80 : Int) ≤ n_days 2026; decide, rfl⟩
  have he : SingleAxisEntry.mk 720 (some 0) ∈
      (day_row cfgW oracleW.dayGeo (saEntryFn oracleW) 80).entries := by
    rw [day_row_W_sa]
    exact List.mem_singleton.2 rfl
  have h := ((entry_grid_uniform oracleW cfgW stampW (by decide)).1
    (day_row cfgW oracleW.dayGeo (saEntryFn oracleW) 80) hd).1
    (SingleAxisEntry.mk 720 (some 0)) he
  exact ⟨by decide, h⟩

/-- Witness for C8 (amended) at the concrete generated table. -/
theorem day_row_minutes_strictly_increasing_witness :
    (0 : Int) < cfgW.interval_minutes ∧
      List.Pairwise (fun a b : SingleAxisEntry => a.minutes < b.minutes)
        [SingleAxisEntry.mk 720 (some 0)] := by
  have hd : day_row cfgW oracleW.dayGeo (saEntryFn oracleW) 80 ∈
      (generate_single_axis_table oracleW cfgW stampW).days := by
    apply generate_table_mem_days.2
    exact ⟨80, by decide, by show (80 : Int) ≤ n_days 2026; decide, rfl⟩
  have h := (day_row_minutes_strictly_increasing oracleW cfgW stampW (by decide)).1
    (day_row cfgW oracleW.dayGeo (saEntryFn oracleW) 80) hd
  rw [day_row_W_sa] at h
  exact ⟨by decide, h⟩

/-! ## The pathological negative-interval configuration -/

lemma oracleW_sunrise_utc (doy : Int) : sunrise_utc (oracleW.dayGeo doy) = 360 := by
  show truncQ (((360 : Int) : ℚ) - 0) = 360
  rw [sub_zero, truncQ_intCast]

lemma oracleW_sunset_utc (doy : Int) : sunset_utc (oracleW.dayGeo doy) = 1080 := by
  show truncQ (((1080 : Int) : ℚ) - 0) = 1080
  rw [sub_zero, truncQ_intCast]

lemma oracleW_local (doy mins : Int) : local_minutes (oracleW.dayGeo doy) mins = mins := by
  show truncQ ((mins : ℚ) + 0) = mins
  rw [add_zero, truncQ_intCast]

lemma oracleW_is_daylight (doy mins : Int) :
    is_daylight (oracleW.dayGeo doy) mins = decide ((360 : Int) ≤ mins ∧ mins ≤ 1080) := by
  unfold is_daylight
  rw [oracleW_local]
  rfl

/-- A configuration the Rust code accepts: sampling interval −1 and sunrise
buffer −1084 with the `oracleW` geometry make every day row contain the
minutes 1442 then 1441, in that order. -/
def cfg8 : LookupTableConfig :=
  { interval_minutes := -1, latitude := 0, longitude := 0, year := 2026
    sunrise_buffer_minutes := -1084, sunset_buffer_minutes := 30 }

lemma day_row_8 (doy : Int) :
    day_row cfg8 oracleW.dayGeo (saEntryFn oracleW) doy =
      { day_of_year := doy, sunrise_minutes := 360, sunset_minutes := 1080
        entries := [{ minutes := 1442, rotation := none },
                    { minutes := 1441, rotation := none }] } := by
  have hf : first_interval cfg8 (oracleW.dayGeo doy) = -1442 := by
    unfold first_interval
    rw [show window_start cfg8 (oracleW.dayGeo doy) = 1444 by
      unfold window_start; rw [oracleW_sunrise_utc]; decide]
    decide
  have hl : last_interval cfg8 (oracleW.dayGeo doy) = -1441 := by
    unfold last_interval
    rw [show window_end cfg8 (oracleW.dayGeo doy) = 1110 by
      unfold window_end; rw [oracleW_sunset_utc]; decide]
    decide
  unfold day_row day_entries
  rw [hf, hl]
  rw [show intRangeIncl (-1442) (-1441) = [-1442, -1441] from rfl]
  simp only [List.map_cons, List.map_nil]
  rw [show (-1442 : Int) * cfg8.interval_minutes = 1442 from rfl,
      show (-1441 : Int) * cfg8.interval_minutes = 1441 from rfl]
  rw [oracleW_is_daylight, oracleW_is_daylight]
  rfl

/-- Counterexample to C8 as stated (no restriction on the configured
interval): the generated table for `cfg8` has a day row whose entry minutes
are strictly decreasing, not increasing. -/
theorem day_row_minutes_not_increasing_cex :
    ¬ ∀ d ∈ (generate_single_axis_table oracleW cfg8 stampW).days,
        List.Pairwise (fun a b : SingleAxisEntry => a.minutes < b.minutes) d.entries := by
  intro h
  have hd : day_row cfg8 oracleW.dayGeo (saEntryFn oracleW) 1 ∈
      (generate_single_axis_table oracleW cfg8 stampW).days := by
    apply generate_table_mem_days.2
    exact ⟨1, by decide, by show (1 : Int) ≤ n_days 2026; decide, rfl⟩
  have hp := h _ hd
  rw [day_row_8] at hp
  have h12 := List.rel_of_pairwise_cons hp (List.mem_singleton.2 rfl)
  simp at h12

/-! ## Full-year structure of generated tables -/

lemma day_entries_nil_of_degenerate {E : Type} (cfg : LookupTableConfig) (g : DayGeo)
    (doy : Int) (ef : Int → Int → Bool → E) (hk : 0 < cfg.interval_minutes)
    (hlt : window_end cfg g < window_start cfg g) (hnn : 0 ≤ window_end cfg g) :
    day_entries cfg g doy ef = [] := by
  have hst : 0 ≤ window_start cfg g := window_start_nonneg cfg g
  have hfst : first_interval cfg g
      = (window_start cfg g - 1) / cfg.interval_minutes + 1 := by
    unfold first_interval
    rw [Int.tdiv_eq_ediv (by omega) (by omega)]
    rw [show window_start cfg g + cfg.interval_minutes - 1
        = (window_start cfg g - 1) + 1 * cfg.interval_minutes by ring]
    rw [Int.add_mul_ediv_right _ _ (by omega : cfg.interval_minutes ≠ 0)]
  have hlst : last_interval cfg g ≤ (window_start cfg g - 1) / cfg.interval_minutes := by
    unfold last_interval
    refine le_trans (min_le_left _ _) ?_
    rw [Int.tdiv_eq_ediv hnn (by omega)]
    exact Int.ediv_le_ediv (by omega) (by omega)
  unfold day_entries
  rw [intRangeIncl_eq_nil (by omega)]
  rfl

/-- Claim C6 (amended): for every configuration with a nonzero sampling
interval, generation does not fail — the run returns the table — and every
table the run returns has exactly one day row per calendar day in ascending
order (365 or 366 by the leap rule), with `total_entries` the sum of the
per-row entry counts and each row carrying its day's sunrise/sunset metadata;
with a positive sampling interval, a returned day row whose sampled window is
degenerate (`end < start`) with a nonnegative clamped end minute has an empty
entry sequence.  At a zero interval the run instead panics on
`1440 / interval_minutes` (see the counterexample). -/
theorem generate_table_structure :
    (∀ (E : Type) (cfg : LookupTableConfig) (geo : Int → DayGeo)
        (ef : Int → Int → Bool → E) (b : Nat) (s : String),
      cfg.interval_minutes ≠ 0 →
      generate_table_run cfg geo ef b s
        = RustOutcome.returns (generate_table cfg geo ef b s)) ∧
    (∀ (E : Type) (cfg : LookupTableConfig) (geo : Int → DayGeo)
        (ef : Int → Int → Bool → E) (b : Nat) (s : String)
        (t : LookupTable E),
      generate_table_run cfg geo ef b s = RustOutcome.returns t →
      t.days.length = (if leap_year cfg.year then 366 else 365) ∧
      t.days.map (fun d => d.day_of_year) = intRangeIncl 1 (n_days cfg.year) ∧
      t.metadata.total_entries = (t.days.map (fun d => d.entries.length)).sum ∧
      ∀ d ∈ t.days,
        d.sunrise_minutes = (geo d.day_of_year).ss.sunrise ∧
          d.sunset_minutes = (geo d.day_of_year).ss.sunset) ∧
    (∀ (E : Type) (cfg : LookupTableConfig) (geo : Int → DayGeo)
        (ef : Int → Int → Bool → E) (b : Nat) (s : String)
        (t : LookupTable E),
      0 < cfg.interval_minutes →
      generate_table_run cfg geo ef b s = RustOutcome.returns t →
      ∀ d ∈ t.days,
        window_end cfg (geo d.day_of_year) < window_start cfg (geo d.day_of_year) →
        0 ≤ window_end cfg (geo d.day_of_year) → d.entries = []) := by
  refine ⟨fun E cfg geo ef b s h0 => ?_, fun E cfg geo ef b s t ht => ?_,
    fun E cfg geo ef b s t hk ht => ?_⟩
  · unfold generate_table_run
    rw [if_neg h0]
  · obtain rfl : generate_table cfg geo ef b s = t := by
      unfold generate_table_run at ht
      split at ht
      · exact absurd ht (by simp)
      · exact RustOutcome.returns.inj ht
    refine ⟨generate_table_days_length cfg geo ef b s, ?_, rfl, ?_⟩
    · rw [generate_table_days, List.map_map]
      have hcomp : ((fun d : DayData E => d.day_of_year) ∘ day_row cfg geo ef) = id := by
        funext doy
        rfl
      rw [hcomp, List.map_id]
    · intro d hd
      obtain ⟨doy, h1, h2, rfl⟩ := generate_table_mem_days.1 hd
      exact ⟨rfl, rfl⟩
  · obtain rfl : generate_table cfg geo ef b s = t := by
      unfold generate_table_run at ht
      split at ht
      · exact absurd ht (by simp)
      · exact RustOutcome.returns.inj ht
    intro d hd hlt hnn
    obtain ⟨doy, h1, h2, rfl⟩ := generate_table_mem_days.1 hd
    exact day_entries_nil_of_degenerate cfg _ doy ef hk hlt hnn

/-- Collaborator instance for the degenerate-window corner: polar-night
geometry (sunrise = sunset = 720) with zero correction. -/
def oracle6 : SolarOracle :=
  { dayGeo := fun _ => { ss := { sunrise := 720, sunset := 720 }, correctionMinutes := 0 }
    saRotation := fun _ _ => 0
    daTilt := fun _ _ => 0
    daAzimuth := fun _ _ => 0 }

/-- Configuration whose window degenerates with a negative clamped end minute:
`start = 0`, `end = -11`, yet one entry at minute 0 is generated. -/
def cfg6 : LookupTableConfig :=
  { interval_minutes := 15, latitude := 0, longitude := 0, year := 2026
    sunrise_buffer_minutes := 720, sunset_buffer_minutes := -731 }

/-- Degenerate-window configuration with a nonnegative end minute
(`start = 730`, `end = 700`), used by the amended-claim witness. -/
def cfg6b : LookupTableConfig :=
  { interval_minutes := 15, latitude := 0, longitude := 0, year := 2026
    sunrise_buffer_minutes := -10, sunset_buffer_minutes := -20 }

lemma oracle6_sunrise_utc (doy : Int) : sunrise_utc (oracle6.dayGeo doy) = 720 := by
  show truncQ (((720 : Int) : ℚ) - 0) = 720
  rw [sub_zero, truncQ_intCast]

lemma oracle6_sunset_utc (doy : Int) : sunset_utc (oracle6.dayGeo doy) = 720 := by
  show truncQ (((720 : Int) : ℚ) - 0) = 720
  rw [sub_zero, truncQ_intCast]

lemma oracle6_local (doy mins : Int) : local_minutes (oracle6.dayGeo doy) mins = mins := by
  show truncQ ((mins : ℚ) + 0) = mins
  rw [add_zero, truncQ_intCast]

lemma oracle6_is_daylight (doy mins : Int) :
    is_daylight (oracle6.dayGeo doy) mins = decide ((720 : Int) ≤ mins ∧ mins ≤ 720) := by
  unfold is_daylight
  rw [oracle6_local]
  rfl

lemma cfg6_window (doy : Int) :
    window_start cfg6 (oracle6.dayGeo doy) = 0 ∧
      window_end cfg6 (oracle6.dayGeo doy) = -11 := by
  constructor
  · unfold window_start
    rw [oracle6_sunrise_utc]
    decide
  · unfold window_end
    rw [oracle6_sunset_utc]
    decide

lemma day_row_6 (doy : Int) :
    day_row cfg6 oracle6.dayGeo (saEntryFn oracle6) doy =
      { day_of_year := doy, sunrise_minutes := 720, sunset_minutes := 720
        entries := [{ minutes := 0, rotation := none }] } := by
  obtain ⟨hs, he⟩ := cfg6_window doy
  have hf : first_interval cfg6 (oracle6.dayGeo doy) = 0 := by
    unfold first_interval
    rw [hs]
    decide
  have hl : last_interval cfg6 (oracle6.dayGeo doy) = 0 := by
    unfold last_interval
    rw [he]
    decide
  unfold day_row day_entries
  rw [hf, hl]
  rw [show intRangeIncl 0 0 = [0] from rfl]
  simp only [List.map_cons, List.map_nil]
  rw [show (0 : Int) * cfg6.interval_minutes = 0 from rfl]
  rw [oracle6_is_daylight]
  rfl

/-- Configuration with a zero sampling interval, on which the Rust generator
panics at `1440 / interval_minutes`. -/
def cfg0 : LookupTableConfig :=
  { interval_minutes := 0, latitude := 0, longitude := 0, year := 2026
    sunrise_buffer_minutes := 30, sunset_buffer_minutes := 30 }

/-- Counterexample to C6 as stated: generation is not failure-free over every
configuration — at `cfg0` (zero interval) the run panics on the
divide-by-zero — and a day whose sampled window is degenerate does not always
get an empty entry sequence: in the `cfg6` table (positive 15-minute
interval), day 1 has `end = -11 < 0 = start` yet contains one entry at
minute 0. -/
theorem zero_interval_panic_and_degenerate_entry_cex :
    generate_table_run cfg0 oracleW.dayGeo (saEntryFn oracleW) 4 stampW
        = RustOutcome.panics ∧
      ¬ ∀ d ∈ (generate_single_axis_table oracle6 cfg6 stampW).days,
          window_end cfg6 (oracle6.dayGeo d.day_of_year) <
              window_start cfg6 (oracle6.dayGeo d.day_of_year) →
            d.entries = [] := by
  constructor
  · unfold generate_table_run
    rw [if_pos (show cfg0.interval_minutes = 0 from rfl)]
  · intro h
    have hd : day_row cfg6 oracle6.dayGeo (saEntryFn oracle6) 1 ∈
        (generate_single_axis_table oracle6 cfg6 stampW).days := by
      apply generate_table_mem_days.2
      exact ⟨1, by decide, by show (1 : Int) ≤ n_days 2026; decide, rfl⟩
    have hdeg : window_end cfg6 (oracle6.dayGeo (1 : Int)) <
        window_start cfg6 (oracle6.dayGeo (1 : Int)) := by
      obtain ⟨hs, he⟩ := cfg6_window (1 : Int)
      omega
    have hnil := h _ hd hdeg
    rw [day_row_6] at hnil
    simp at hnil

/-- Witness for C6 (amended): at the 720-minute configuration the run returns
the table, which has 365 rows; and the degenerate day of `cfg6b` (window
730..700, positive interval, both ends nonnegative) has an empty entry
sequence. -/
theorem generate_table_structure_witness :
    generate_table_run cfgW oracleW.dayGeo (saEntryFn oracleW) 4 stampW
        = RustOutcome.returns
            (generate_table cfgW oracleW.dayGeo (saEntryFn oracleW) 4 stampW) ∧
      (generate_table cfgW oracleW.dayGeo (saEntryFn oracleW) 4 stampW).days.length
          = 365 ∧
      (day_row cfg6b oracle6.dayGeo (saEntryFn oracle6) 1).entries = [] := by
  have hrun := generate_table_structure.1 SingleAxisEntry cfgW oracleW.dayGeo
    (saEntryFn oracleW) 4 stampW (by decide)
  refine ⟨hrun, ?_, ?_⟩
  · have h := (generate_table_structure.2.1 SingleAxisEntry cfgW oracleW.dayGeo
      (saEntryFn oracleW) 4 stampW _ hrun).1
    rw [h]
    decide
  · have hrun6 := generate_table_structure.1 SingleAxisEntry cfg6b oracle6.dayGeo
      (saEntryFn oracle6) 4 stampW (by decide)
    have hs : window_start cfg6b (oracle6.dayGeo 1) = 730 := by
      unfold window_start
      rw [oracle6_sunrise_utc]
      decide
    have he : window_end cfg6b (oracle6.dayGeo 1) = 700 := by
      unfold window_end
      rw [oracle6_sunset_utc]
      decide
    have hd : day_row cfg6b oracle6.dayGeo (saEntryFn oracle6) 1 ∈
        (generate_table cfg6b oracle6.dayGeo (saEntryFn oracle6) 4 stampW).days := by
      apply generate_table_mem_days.2
      exact ⟨1, by decide, by show (1 : Int) ≤ n_days 2026; decide, rfl⟩
    exact generate_table_structure.2.2 SingleAxisEntry cfg6b oracle6.dayGeo
      (saEntryFn oracle6) 4 stampW _ (by decide) hrun6 _ hd
      (by show window_end cfg6b (oracle6.dayGeo 1) < window_start cfg6b (oracle6.dayGeo 1)
          rw [hs, he]; decide)
      (by show (0 : Int) ≤ window_end cfg6b (oracle6.dayGeo 1)
          rw [he]; decide)

/-! ## Lookup: out-of-window and out-of-range behaviour -/

lemma find_bracketing_entries_none {E : Type} [HasMinutes E]
    (entries : List E) (k m : Int)
    (hout : ∀ e0 ∈ entries.head?, ∀ el ∈ entries.getLast?,
      m < HasMinutes.minutes e0 ∨ HasMinutes.minutes el < m) :
    find_bracketing_entries entries k m = none := by
  match entries with
  | [] => rfl
  | e0 :: rest =>
    obtain ⟨el, hel⟩ : ∃ el, (e0 :: rest).getLast? = some el := by
      cases hcon : (e0 :: rest).getLast? with
      | none => exact absurd (List.getLast?_eq_none_iff.1 hcon) (by simp)
      | some x => exact ⟨x, rfl⟩
    have hcase := hout e0 (by simp) el (by rw [hel]; rfl)
    simp only [find_bracketing_entries, hel, Option.getD_some]
    rw [if_pos]
    simp only [decide_eq_true_eq, Bool.or_eq_true]
    rcases hcase with h | h
    · exact Or.inl h
    · exact Or.inr h

/-- Claim C1 (amended): when the requested day row exists, both lookups return
the absent result whenever the requested minute lies strictly outside the
row's `[first entry minute, last entry minute]` (vacuously covering the empty
row); an out-of-range day-of-year is not tolerated — the unchecked day index
panics (see the counterexample). -/
theorem lookup_out_of_window_returns_none :
    (∀ (t : LookupTable SingleAxisEntry) (doy m : Int) (d : DayData SingleAxisEntry),
      t.days.get? (usizeOfIntCast (doy - 1)) = some d →
      (∀ e0 ∈ d.entries.head?, ∀ el ∈ d.entries.getLast?,
        m < e0.minutes ∨ el.minutes < m) →
      lookup_single_axis t doy m = RustOutcome.returns none) ∧
    (∀ (t : LookupTable DualAxisEntry) (doy m : Int) (d : DayData DualAxisEntry),
      t.days.get? (usizeOfIntCast (doy - 1)) = some d →
      (∀ e0 ∈ d.entries.head?, ∀ el ∈ d.entries.getLast?,
        m < e0.minutes ∨ el.minutes < m) →
      lookup_dual_axis t doy m = RustOutcome.returns none) := by
  constructor
  · intro t doy m d hget hout
    have hfb := find_bracketing_entries_none d.entries t.config.interval_minutes m hout
    unfold lookup_single_axis
    rw [hget]
    simp only [hfb]
  · intro t doy m d hget hout
    have hfb := find_bracketing_entries_none d.entries t.config.interval_minutes m hout
    unfold lookup_dual_axis
    rw [hget]
    simp only [hfb]

/-- Hand-built single-axis table with one day row sampled at minute 720. -/
def tblC1sa : LookupTable SingleAxisEntry :=
  { config := cfgW
    days := [{ day_of_year := 1, sunrise_minutes := 360, sunset_minutes := 1080
               entries := [{ minutes := 720, rotation := some 0 }] }]
    metadata := { generated_at := stampW, total_entries := 1, storage_estimate_kb := 0 } }

/-- Hand-built dual-axis table with one day row sampled at minute 720. -/
def tblC1da : LookupTable DualAxisEntry :=
  { config := cfgW
    days := [{ day_of_year := 1, sunrise_minutes := 360, sunset_minutes := 1080
               entries := [{ minutes := 720, tilt := some 0, panel_azimuth := some 0 }] }]
    metadata := { generated_at := stampW, total_entries := 1, storage_estimate_kb := 0 } }

/-- Witness for C1 (amended): a midnight query (minute 0) against a row whose
window is [720, 720] returns the absent result on both lookups. -/
theorem lookup_out_of_window_returns_none_witness :
    lookup_single_axis tblC1sa 1 0 = RustOutcome.returns none ∧
      lookup_dual_axis tblC1da 1 0 = RustOutcome.returns none := by
  constructor
  · refine lookup_out_of_window_returns_none.1 tblC1sa 1 0
      { day_of_year := 1, sunrise_minutes := 360, sunset_minutes := 1080
        entries := [{ minutes := 720, rotation := some 0 }] } rfl ?_
    intro e0 h0 el hl
    simp only [List.head?_cons, Option.mem_some_iff] at h0
    subst h0
    left
    decide
  · refine lookup_out_of_window_returns_none.2 tblC1da 1 0
      { day_of_year := 1, sunrise_minutes := 360, sunset_minutes := 1080
        entries := [{ minutes := 720, tilt := some 0, panel_azimuth := some 0 }] } rfl ?_
    intro e0 h0 el hl
    simp only [List.head?_cons, Option.mem_some_iff] at h0
    subst h0
    left
    decide

/-- Counterexample to C1 as stated: querying day 366 of a 365-row generated
table does not return the absent result — the unchecked day index
`table.days[(day_of_year - 1) as usize]` panics. -/
theorem lookup_out_of_range_day_panics :
    lookup_single_axis (generate_single_axis_table oracleW cfgW stampW) 366 720
      = RustOutcome.panics := by
  have hlen : (generate_single_axis_table oracleW cfgW stampW).days.length = 365 := by
    show (generate_table cfgW oracleW.dayGeo (saEntryFn oracleW) 4 stampW).days.length = 365
    rw [generate_table_days_length]
    decide
  have hidx : usizeOfIntCast ((366 : Int) - 1) = 365 := by decide
  have hget : (generate_single_axis_table oracleW cfgW stampW).days.get?
      (usizeOfIntCast ((366 : Int) - 1)) = none := by
    rw [hidx, List.get?_eq_none, hlen]
  unfold lookup_single_axis
  rw [hget]

/-! ## Lookup: exact-minute queries on uniform rows -/

lemma find_bracketing_exact {E : Type} [HasMinutes E] {k f l j : Int} (mk : Int → E)
    (hk : 0 < k) (hmk : ∀ i : Int, HasMinutes.minutes (mk i) = i * k)
    (hfj : f ≤ j) (hjl : j ≤ l) :
    find_bracketing_entries ((intRangeIncl f l).map mk) k (j * k)
      = some (mk j, none, 0) := by
  have hfl : f ≤ l := le_trans hfj hjl
  have hlen : ((intRangeIncl f l).map mk).length = (l + 1 - f).toNat := by
    rw [List.length_map, intRangeIncl_length]
  cases hLst : (intRangeIncl f l).map mk with
  | nil =>
    rw [hLst] at hlen
    simp only [List.length_nil] at hlen
    omega
  | cons e0 rest =>
    have he0 : e0 = mk f := by
      have h1 : ((intRangeIncl f l).map mk).get? 0 = some (mk f) := by
        rw [List.get?_map, intRangeIncl_get? (by push_cast; omega)]
        simp
      rw [hLst, List.get?_cons_zero] at h1
      exact Option.some.inj h1
    subst he0
    have hgetLast : (mk f :: rest).getLast? = some (mk l) := by
      rw [← hLst, List.getLast?_map, intRangeIncl_getLast? hfl]
      rfl
    have hlen2 : ((mk f :: rest).length : Int) - 1 = l - f := by
      have : (mk f :: rest).length = (l + 1 - f).toNat := by rw [← hLst, hlen]
      omega
    have htdiv : Int.tdiv (j * k - f * k) k = j - f := by
      rw [show j * k - f * k = (j - f) * k by ring]
      exact Int.mul_tdiv_cancel _ (ne_of_gt hk)
    have hget : (mk f :: rest).get? (j - f).toNat = some (mk j) := by
      rw [← hLst, List.get?_map, intRangeIncl_get? (by omega)]
      rw [show f + (((j - f).toNat : Nat) : Int) = j by
        push_cast [Int.toNat_of_nonneg (by omega : (0 : Int) ≤ j - f)]
        ring]
      rfl
    simp only [find_bracketing_entries, hgetLast, Option.getD_some, hmk]
    rw [if_neg (by
      simp only [Bool.or_eq_true, decide_eq_true_eq, not_or, not_lt]
      exact ⟨mul_le_mul_of_nonneg_right hfj (le_of_lt hk),
        mul_le_mul_of_nonneg_right hjl (le_of_lt hk)⟩)]
    rw [htdiv, hlen2]
    rw [min_eq_left (by omega : j - f ≤ l - f)]
    have hgetD : (mk f :: rest).getD (j - f).toNat (mk f) = mk j := by
      rw [List.getD_eq_get?, hget]
      rfl
    rw [hgetD, hmk]
    cases hnext : (mk f :: rest).get? ((j - f).toNat + 1) with
    | none => rfl
    | some ea => simp

lemma generate_table_get?_eq {E : Type} {cfg : LookupTableConfig} {geo : Int → DayGeo}
    {ef : Int → Int → Bool → E} {b : Nat} {s : String} {i : Nat} {d : DayData E}
    (h : (generate_table cfg geo ef b s).days.get? i = some d) :
    d = day_row cfg geo ef (1 + i) := by
  rw [generate_table_days, List.get?_map] at h
  have hlen : i < (intRangeIncl 1 (n_days cfg.year)).length := by
    by_contra hcon
    push_neg at hcon
    rw [List.get?_eq_none.2 hcon] at h
    simp at h
  rw [intRangeIncl_length] at hlen
  rw [intRangeIncl_get? (by omega)] at h
  simp only [Option.map_some'] at h
  exact (Option.some.inj h).symm

/-- Claim C7 (amended): for a table generated with a positive sampling
interval, a lookup at the exact minute of a sampled entry (the requested day
row being found) returns that entry unchanged, through the fraction-0 path. -/
theorem lookup_exact_minute_returns_entry (o : SolarOracle) (cfg : LookupTableConfig)
    (s : String) (doy m : Int) (hk : 0 < cfg.interval_minutes) :
    (∀ d, (generate_single_axis_table o cfg s).days.get?
        (usizeOfIntCast (doy - 1)) = some d →
      ∀ e ∈ d.entries, e.minutes = m →
      lookup_single_axis (generate_single_axis_table o cfg s) doy m
        = RustOutcome.returns (some e)) ∧
    (∀ d, (generate_dual_axis_table o cfg s).days.get?
        (usizeOfIntCast (doy - 1)) = some d →
      ∀ e ∈ d.entries, e.minutes = m →
      lookup_dual_axis (generate_dual_axis_table o cfg s) doy m
        = RustOutcome.returns (some e)) := by
  constructor
  · intro d hget e he hem
    have hget' : (generate_table cfg o.dayGeo (saEntryFn o) 4 s).days.get?
        (usizeOfIntCast (doy - 1)) = some d := hget
    have hd := generate_table_get?_eq hget'
    subst hd
    obtain ⟨i, hi1, hi2, rfl⟩ := mem_day_entries.1 he
    have hem' : i * cfg.interval_minutes = m := hem
    unfold lookup_single_axis
    rw [hget]
    have hfb := find_bracketing_exact
      (fun t => saEntryFn o (1 + (usizeOfIntCast (doy - 1) : Int))
        (t * cfg.interval_minutes)
        (is_daylight (o.dayGeo (1 + (usizeOfIntCast (doy - 1) : Int)))
          (t * cfg.interval_minutes)))
      hk (fun t => rfl) hi1 hi2
    have hfb' : find_bracketing_entries
        (day_row cfg o.dayGeo (saEntryFn o) (1 + (usizeOfIntCast (doy - 1) : Int))).entries
        (generate_single_axis_table o cfg s).config.interval_minutes
        (i * cfg.interval_minutes)
      = some (saEntryFn o (1 + (usizeOfIntCast (doy - 1) : Int))
          (i * cfg.interval_minutes)
          (is_daylight (o.dayGeo (1 + (usizeOfIntCast (doy - 1) : Int)))
            (i * cfg.interval_minutes)), none, 0) := hfb
    rw [← hem']
    simp only [hfb']
    rfl
  · intro d hget e he hem
    have hget' : (generate_table cfg o.dayGeo (daEntryFn o) 8 s).days.get?
        (usizeOfIntCast (doy - 1)) = some d := hget
    have hd := generate_table_get?_eq hget'
    subst hd
    obtain ⟨i, hi1, hi2, rfl⟩ := mem_day_entries.1 he
    have hem' : i * cfg.interval_minutes = m := by
      rw [← hem, daEntryFn_minutes]
    unfold lookup_dual_axis
    rw [hget]
    have hfb := find_bracketing_exact
      (fun t => daEntryFn o (1 + (usizeOfIntCast (doy - 1) : Int))
        (t * cfg.interval_minutes)
        (is_daylight (o.dayGeo (1 + (usizeOfIntCast (doy - 1) : Int)))
          (t * cfg.interval_minutes)))
      hk (fun t => daEntryFn_minutes o _ _ _) hi1 hi2
    have hfb' : find_bracketing_entries
        (day_row cfg o.dayGeo (daEntryFn o) (1 + (usizeOfIntCast (doy - 1) : Int))).entries
        (generate_dual_axis_table o cfg s).config.interval_minutes
        (i * cfg.interval_minutes)
      = some (daEntryFn o (1 + (usizeOfIntCast (doy - 1) : Int))
          (i * cfg.interval_minutes)
          (is_daylight (o.dayGeo (1 + (usizeOfIntCast (doy - 1) : Int)))
            (i * cfg.interval_minutes)), none, 0) := hfb
    rw [← hem']
    simp only [hfb']
    cases hb : is_daylight (o.dayGeo (1 + (usizeOfIntCast (doy - 1) : Int)))
        (i * cfg.interval_minutes) <;>
      simp [daEntryFn, hb]

/-- Witness for C7 (amended): looking up the sampled minute 720 of day 80 in
the concrete generated tables returns the stored entry unchanged. -/
theorem lookup_exact_minute_returns_entry_witness :
    lookup_single_axis (generate_single_axis_table oracleW cfgW stampW) 80 720
        = RustOutcome.returns (some { minutes := 720, rotation := some 0 }) ∧
      lookup_dual_axis (generate_dual_axis_table oracleW cfgW stampW) 80 720
        = RustOutcome.returns
            (some { minutes := 720, tilt := some 0, panel_azimuth := some 0 }) := by
  have hidx : usizeOfIntCast ((80 : Int) - 1) = 79 := by decide
  constructor
  · have hget : (generate_single_axis_table oracleW cfgW stampW).days.get?
        (usizeOfIntCast ((80 : Int) - 1))
        = some (day_row cfgW oracleW.dayGeo (saEntryFn oracleW) 80) := by
      show (generate_table cfgW oracleW.dayGeo (saEntryFn oracleW) 4 stampW).days.get?
        (usizeOfIntCast ((80 : Int) - 1)) = _
      rw [hidx, generate_table_days, List.get?_map,
        intRangeIncl_get? (by show ((79 : Nat) : Int) ≤ n_days cfgW.year - 1; decide)]
      rw [show (1 : Int) + ((79 : Nat) : Int) = 80 by norm_num]
      rfl
    exact (lookup_exact_minute_returns_entry oracleW cfgW stampW 80 720 (by decide)).1 _
      hget (SingleAxisEntry.mk 720 (some 0))
      (by rw [day_row_W_sa]; exact List.mem_singleton.2 rfl) rfl
  · have hget : (generate_dual_axis_table oracleW cfgW stampW).days.get?
        (usizeOfIntCast ((80 : Int) - 1))
        = some (day_row cfgW oracleW.dayGeo (daEntryFn oracleW) 80) := by
      show (generate_table cfgW oracleW.dayGeo (daEntryFn oracleW) 8 stampW).days.get?
        (usizeOfIntCast ((80 : Int) - 1)) = _
      rw [hidx, generate_table_days, List.get?_map,
        intRangeIncl_get? (by show ((79 : Nat) : Int) ≤ n_days cfgW.year - 1; decide)]
      rw [show (1 : Int) + ((79 : Nat) : Int) = 80 by norm_num]
      rfl
    exact (lookup_exact_minute_returns_entry oracleW cfgW stampW 80 720 (by decide)).2 _
      hget (DualAxisEntry.mk 720 (some 0) (some 0))
      (by rw [day_row_W_da]; exact List.mem_singleton.2 rfl) rfl

/-- Counterexample to C7 as stated (no restriction on the configured
interval): in the `cfg8` table, day 1 contains an entry at minute 1441, yet
looking up that exact minute returns the absent result, not the entry —
the decreasing row breaks the bracketing guard. -/
theorem exact_minute_lookup_not_found_cex :
    SingleAxisEntry.mk 1441 none ∈
        (day_row cfg8 oracleW.dayGeo (saEntryFn oracleW) 1).entries ∧
      (generate_single_axis_table oracleW cfg8 stampW).days.get?
          (usizeOfIntCast ((1 : Int) - 1))
        = some (day_row cfg8 oracleW.dayGeo (saEntryFn oracleW) 1) ∧
      lookup_single_axis (generate_single_axis_table oracleW cfg8 stampW) 1 1441
        = RustOutcome.returns none := by
  have hget : (generate_single_axis_table oracleW cfg8 stampW).days.get?
      (usizeOfIntCast ((1 : Int) - 1))
      = some (day_row cfg8 oracleW.dayGeo (saEntryFn oracleW) 1) := by
    show (generate_table cfg8 oracleW.dayGeo (saEntryFn oracleW) 4 stampW).days.get?
      (usizeOfIntCast ((1 : Int) - 1)) = _
    rw [show usizeOfIntCast ((1 : Int) - 1) = 0 by decide, generate_table_days,
      List.get?_map,
      intRangeIncl_get? (by show ((0 : Nat) : Int) ≤ n_days cfg8.year - 1; decide)]
    rw [show (1 : Int) + ((0 : Nat) : Int) = 1 by norm_num]
    rfl
  refine ⟨by rw [day_row_8]; simp, hget, ?_⟩
  have hfb := find_bracketing_entries_none
    (day_row cfg8 oracleW.dayGeo (saEntryFn oracleW) 1).entries
    (generate_single_axis_table oracleW cfg8 stampW).config.interval_minutes 1441
    (by
      intro e0 h0 el hl
      rw [day_row_8] at h0
      simp only [List.head?_cons, Option.mem_some_iff] at h0
      subst h0
      left
      decide)
  unfold lookup_single_axis
  rw [hget]
  simp only [hfb]

end SolarTracker
